import Mathlib

/-!
Verification development for the Penrose tiling generator (penrose.py).

The program's core is pure geometry over 2D points: a golden-section
interpolation primitive, four half-tile variants (Kite, Dart, Acute,
Obtuse), per-variant deflation (substitution) rules, two seed
constructors, and a regeneration routine that builds the seed and
deflates it depth times.  Python floats are modelled by real numbers;
Python integer floor division is Int.fdiv.
-/

namespace Penrose

/-- PHI = (sqrt 5 - 1) / 2, the reciprocal golden ratio (penrose.py line 12). -/
noncomputable def PHI : ℝ := (Real.sqrt 5 - 1) / 2

/-- A 2D point: an (x, y) pair of reals. -/
abbrev Point : Type := ℝ × ℝ

/-- goldenMidpoint A B: the point phi of the way from A to B
(penrose.py lines 15-18). -/
noncomputable def goldenMidpoint (A B : Point) : Point :=
  (A.1 + PHI * (B.1 - A.1), A.2 + PHI * (B.2 - A.2))

/-- The four half-tile variants, each carrying the Isoceles fields
(apex, vertex1, vertex2) in that positional order. -/
inductive HalfTile : Type
  | Kite (apex vertex1 vertex2 : Point)
  | Dart (apex vertex1 vertex2 : Point)
  | Acute (apex vertex1 vertex2 : Point)
  | Obtuse (apex vertex1 vertex2 : Point)

/-- The two tiling families; also the tileType toggled by the Tab key
(strings "Kite & Dart" / "Rhombs" in penrose.py). -/
inductive TileType : Type
  | KiteDart
  | Rhombs
deriving DecidableEq

/-- The family (superclass) of a half-tile variant. -/
def family : HalfTile → TileType
  | HalfTile.Kite _ _ _ => TileType.KiteDart
  | HalfTile.Dart _ _ _ => TileType.KiteDart
  | HalfTile.Acute _ _ _ => TileType.Rhombs
  | HalfTile.Obtuse _ _ _ => TileType.Rhombs

/-- The variant tag of a half-tile. -/
inductive Variant : Type
  | Kite
  | Dart
  | Acute
  | Obtuse
deriving DecidableEq

/-- variantOf: which of the four leaf classes a half-tile belongs to. -/
def variantOf : HalfTile → Variant
  | HalfTile.Kite _ _ _ => Variant.Kite
  | HalfTile.Dart _ _ _ => Variant.Dart
  | HalfTile.Acute _ _ _ => Variant.Acute
  | HalfTile.Obtuse _ _ _ => Variant.Obtuse

/-- deflate: the per-variant substitution rules
(penrose.py lines 63-71, 77-83, 114-120, 126-134), children in the
order the Python tuples return them. -/
noncomputable def deflate : HalfTile → List HalfTile
  | HalfTile.Kite apex vertex1 vertex2 =>
      let newPoint1 := goldenMidpoint vertex1 apex
      let newPoint2 := goldenMidpoint apex vertex2
      [HalfTile.Dart newPoint1 newPoint2 apex,
       HalfTile.Kite vertex1 newPoint1 newPoint2,
       HalfTile.Kite vertex1 vertex2 newPoint2]
  | HalfTile.Dart apex vertex1 vertex2 =>
      let newPoint := goldenMidpoint vertex2 vertex1
      [HalfTile.Kite vertex2 newPoint apex,
       HalfTile.Dart newPoint apex vertex1]
  | HalfTile.Acute apex vertex1 vertex2 =>
      let newPoint := goldenMidpoint apex vertex1
      [HalfTile.Obtuse newPoint vertex2 apex,
       HalfTile.Acute vertex2 newPoint vertex1]
  | HalfTile.Obtuse apex vertex1 vertex2 =>
      let newPoint1 := goldenMidpoint vertex1 apex
      let newPoint2 := goldenMidpoint vertex1 vertex2
      [HalfTile.Obtuse newPoint1 newPoint2 vertex1,
       HalfTile.Acute newPoint2 newPoint1 apex,
       HalfTile.Obtuse newPoint2 vertex2 apex]

/-- KiteDart.initialTiles cx cy length: the half-kite seed
(penrose.py lines 36-47).  cx, cy are the integer canvas half-sizes;
Python's // on ints is floor division, Int.fdiv. -/
noncomputable def KiteDart.initialTiles (cx cy : ℤ) (length : ℝ) : List HalfTile :=
  let cxs : ℝ := (Int.fdiv (cx * 2) 5 : ℤ)
  let cys : ℝ := (Int.fdiv (cy * 2) 5 : ℤ)
  let left := cxs - length / 2
  let right := cxs + length / 2
  let midX := left + length * Real.cos (Real.pi / 5)
  let height := length * Real.sin (Real.pi / 5)
  let top := cys - height / 2
  let bottom := cys + height / 2
  [HalfTile.Kite (left, bottom) (midX, top) (right, bottom)]

/-- Rhomb.initialTiles cx cy length: the acute Robinson triangle seed
(penrose.py lines 88-98); only cx is rescaled by 2//5, cy is used as is. -/
noncomputable def Rhomb.initialTiles (cx cy : ℤ) (length : ℝ) : List HalfTile :=
  let cxs : ℝ := (Int.fdiv (cx * 2) 5 : ℤ)
  let width := length * Real.sin (2 * Real.pi / 5)
  let height := length * PHI
  let left := cxs - width / 2
  let right := cxs + width / 2
  let top := (cy : ℝ) - height / 2
  let bottom := (cy : ℝ) + height / 2
  [HalfTile.Acute (left, (cy : ℝ)) (right, top) (right, bottom)]

/-- The seed constructor selected by the tileType dispatch in
refreshTiles (penrose.py lines 158-161). -/
noncomputable def initialTilesFor : TileType → ℤ → ℤ → ℝ → List HalfTile
  | TileType.KiteDart, cx, cy, length => KiteDart.initialTiles cx cy length
  | TileType.Rhombs, cx, cy, length => Rhomb.initialTiles cx cy length

/-- deflateTiles: one generation-wide deflation step, mirroring the
newTiles accumulator loop (penrose.py lines 147-151). -/
noncomputable def deflateTiles (tiles : List HalfTile) : List HalfTile :=
  tiles.foldl (fun newTiles tile => newTiles ++ deflate tile) []

/-- The mutable data record of the MVC framework, restricted to the
fields the core reads and writes. -/
structure ModelData : Type where
  width : ℤ
  height : ℤ
  baseLength : ℝ
  depth : ℤ
  tileType : TileType
  tiles : List HalfTile

/-- refreshTiles: full regeneration from the seed
(penrose.py lines 154-164): seed at length baseLength / PHI ^ depth,
then deflateTiles applied once per iteration of range(depth). -/
noncomputable def refreshTiles (data : ModelData) : ModelData :=
  let cx := Int.fdiv data.width 2
  let cy := Int.fdiv data.height 2
  let initialLength := data.baseLength / PHI ^ data.depth
  ⟨data.width, data.height, data.baseLength, data.depth, data.tileType,
   deflateTiles^[data.depth.toNat] (initialTilesFor data.tileType cx cy initialLength)⟩

/-- The key symbols the keyPressed dispatch distinguishes. -/
inductive Key : Type
  | Up
  | Down
  | Tab
  | Other

/-- The Tab-key family toggle (penrose.py line 177). -/
def toggleType : TileType → TileType
  | TileType.Rhombs => TileType.KiteDart
  | TileType.KiteDart => TileType.Rhombs

/-- keyPressed: the control-event transitions (penrose.py lines 166-178). -/
noncomputable def keyPressed (keysym : Key) (data : ModelData) : ModelData :=
  match keysym with
  | Key.Up =>
      refreshTiles ⟨data.width, data.height, data.baseLength,
        data.depth + 1, data.tileType, data.tiles⟩
  | Key.Down =>
      if data.depth > 0 then
        refreshTiles ⟨data.width, data.height, data.baseLength,
          data.depth - 1, data.tileType, data.tiles⟩
      else data
  | Key.Tab =>
      refreshTiles ⟨data.width, data.height, data.baseLength,
        data.depth, toggleType data.tileType, data.tiles⟩
  | Key.Other => data

/-- The apex field of a half-tile. -/
def apexOf : HalfTile → Point
  | HalfTile.Kite apex _ _ => apex
  | HalfTile.Dart apex _ _ => apex
  | HalfTile.Acute apex _ _ => apex
  | HalfTile.Obtuse apex _ _ => apex

/-- The end-to-end scenario state of the spec: tileType Rhombs, depth 0,
baseLength 30, canvas 800 x 500, so the center is (400, 250). -/
noncomputable def dataC4 : ModelData := ⟨800, 500, (30 : ℝ), 0, TileType.Rhombs, []⟩

/-! ### Helper lemmas -/

/-- The accumulator loop of deflateTiles, generalized over the accumulator. -/
lemma foldl_append_deflate (ts : List HalfTile) :
    ∀ acc : List HalfTile,
      ts.foldl (fun newTiles tile => newTiles ++ deflate tile) acc
        = acc ++ (ts.map deflate).flatten := by
  induction ts with
  | nil => intro acc; simp
  | cons t ts ih =>
      intro acc
      simp [List.foldl_cons, ih, List.append_assoc]

/-- deflateTiles maps deflate over the generation and concatenates the
children in order. -/
lemma deflateTiles_eq_join (ts : List HalfTile) :
    deflateTiles ts = (ts.map deflate).flatten := by
  simpa using foldl_append_deflate ts []

/-! ### Claims -/

/-- Claim C1: deflating a Kite half-tile yields exactly the ordered triple
(Dart(P1, P2, apex), Kite(vertex1, P1, P2), Kite(vertex1, vertex2, P2)) with
P1 = goldenMidpoint(vertex1, apex) and P2 = goldenMidpoint(apex, vertex2);
deflating a Dart yields exactly the ordered pair (Kite(vertex2, P, apex),
Dart(P, apex, vertex1)) with P = goldenMidpoint(vertex2, vertex1), with
positional arguments (apex, vertex1, vertex2) in that order. -/
theorem claim_C1_kite_dart_deflate :
    (∀ apex vertex1 vertex2 : Point,
      deflate (HalfTile.Kite apex vertex1 vertex2)
        = [HalfTile.Dart (goldenMidpoint vertex1 apex) (goldenMidpoint apex vertex2) apex,
           HalfTile.Kite vertex1 (goldenMidpoint vertex1 apex) (goldenMidpoint apex vertex2),
           HalfTile.Kite vertex1 vertex2 (goldenMidpoint apex vertex2)])
  ∧ (∀ apex vertex1 vertex2 : Point,
      deflate (HalfTile.Dart apex vertex1 vertex2)
        = [HalfTile.Kite vertex2 (goldenMidpoint vertex2 vertex1) apex,
           HalfTile.Dart (goldenMidpoint vertex2 vertex1) apex vertex1]) :=
  ⟨fun _ _ _ => rfl, fun _ _ _ => rfl⟩

/-- Claim C2: deflating an Acute half-tile yields exactly the ordered pair
(Obtuse(P, vertex2, apex), Acute(vertex2, P, vertex1)) with
P = goldenMidpoint(apex, vertex1); deflating an Obtuse yields exactly the
ordered triple (Obtuse(P1, P2, vertex1), Acute(P2, P1, apex),
Obtuse(P2, vertex2, apex)) with P1 = goldenMidpoint(vertex1, apex) and
P2 = goldenMidpoint(vertex1, vertex2). -/
theorem claim_C2_rhomb_deflate :
    (∀ apex vertex1 vertex2 : Point,
      deflate (HalfTile.Acute apex vertex1 vertex2)
        = [HalfTile.Obtuse (goldenMidpoint apex vertex1) vertex2 apex,
           HalfTile.Acute vertex2 (goldenMidpoint apex vertex1) vertex1])
  ∧ (∀ apex vertex1 vertex2 : Point,
      deflate (HalfTile.Obtuse apex vertex1 vertex2)
        = [HalfTile.Obtuse (goldenMidpoint vertex1 apex) (goldenMidpoint vertex1 vertex2) vertex1,
           HalfTile.Acute (goldenMidpoint vertex1 vertex2) (goldenMidpoint vertex1 apex) apex,
           HalfTile.Obtuse (goldenMidpoint vertex1 vertex2) vertex2 apex]) :=
  ⟨fun _ _ _ => rfl, fun _ _ _ => rfl⟩

/-- Claim C7: goldenMidpoint A B equals A + PHI bullet (B - A) componentwise,
and PHI is (sqrt 5 - 1) / 2. -/
theorem claim_C7_goldenMidpoint_phi :
    (∀ A B : Point, goldenMidpoint A B = A + PHI • (B - A))
  ∧ PHI = (Real.sqrt 5 - 1) / 2 := by
  constructor
  · intro A B
    cases A
    cases B
    simp [goldenMidpoint, Prod.ext_iff]
  · rfl

/-- Claim C6: regeneration seeds the one-element list at edge length
baseLength / PHI ^ depth and applies the generation-wide deflation step
exactly depth times; one step maps deflate over the generation and
concatenates children in order; both seed constructors return one tile. -/
theorem claim_C6_regeneration_structure :
    (∀ (ty : TileType) (depth : ℕ) (base : ℝ) (w h : ℤ) (ts : List HalfTile),
      (refreshTiles ⟨w, h, base, (depth : ℤ), ty, ts⟩).tiles
        = deflateTiles^[depth]
            (initialTilesFor ty (Int.fdiv w 2) (Int.fdiv h 2) (base / PHI ^ depth)))
  ∧ (∀ tiles : List HalfTile, deflateTiles tiles = (tiles.map deflate).flatten)
  ∧ (∀ (ty : TileType) (cx cy : ℤ) (length : ℝ),
      (initialTilesFor ty cx cy length).length = 1) := by
  refine ⟨?_, deflateTiles_eq_join, ?_⟩
  · intro ty depth base w h ts
    simp [refreshTiles, zpow_natCast]
  · intro ty cx cy length
    cases ty <;> rfl

/-- Each child of a deflation belongs to the same family as its parent. -/
lemma family_mem_deflate {t c : HalfTile} (hc : c ∈ deflate t) :
    family c = family t := by
  cases t with
  | Kite apex vertex1 vertex2 =>
      simp [deflate] at hc
      rcases hc with rfl | rfl | rfl <;> rfl
  | Dart apex vertex1 vertex2 =>
      simp [deflate] at hc
      rcases hc with rfl | rfl <;> rfl
  | Acute apex vertex1 vertex2 =>
      simp [deflate] at hc
      rcases hc with rfl | rfl <;> rfl
  | Obtuse apex vertex1 vertex2 =>
      simp [deflate] at hc
      rcases hc with rfl | rfl | rfl <;> rfl

/-- A generation-wide deflation step preserves family homogeneity. -/
lemma family_mem_deflateTiles {f : TileType} {ts : List HalfTile}
    (h : ∀ t ∈ ts, family t = f) :
    ∀ c ∈ deflateTiles ts, family c = f := by
  intro c hc
  rw [deflateTiles_eq_join] at hc
  rcases List.mem_flatten.1 hc with ⟨l, hl, hcl⟩
  rcases List.mem_map.1 hl with ⟨t, ht, rfl⟩
  exact (family_mem_deflate hcl).trans (h t ht)

/-- Iterating generation-wide deflation preserves family homogeneity. -/
lemma family_iterate (f : TileType) :
    ∀ (n : ℕ) (ts : List HalfTile), (∀ t ∈ ts, family t = f) →
      ∀ c ∈ deflateTiles^[n] ts, family c = f := by
  intro n
  induction n with
  | zero => intro ts h; simpa using h
  | succ n ih =>
      intro ts h
      rw [Function.iterate_succ_apply]
      exact ih _ (family_mem_deflateTiles h)

/-- The seed constructor selected for a tileType produces tiles of that
family. -/
lemma family_initialTilesFor (ty : TileType) (cx cy : ℤ) (length : ℝ) :
    ∀ t ∈ initialTilesFor ty cx cy length, family t = ty := by
  cases ty <;>
    simp [initialTilesFor, KiteDart.initialTiles, Rhomb.initialTiles, family]

/-- Claim C8: a Down key event at depth = 0 leaves the whole state
unchanged, and at depth > 0 it decrements depth and regenerates. -/
theorem claim_C8_down_key :
    ∀ data : ModelData,
      (data.depth = 0 → keyPressed Key.Down data = data)
    ∧ (0 < data.depth →
        keyPressed Key.Down data
          = refreshTiles ⟨data.width, data.height, data.baseLength,
              data.depth - 1, data.tileType, data.tiles⟩) := by
  intro data
  constructor
  · intro h
    simp [keyPressed, h]
  · intro h
    simp [keyPressed, h]

/-- Claim C8 witness: the Down key is a no-op at depth 0 and decrements at
depth 1, on concrete states. -/
theorem claim_C8_down_key_witness :
    keyPressed Key.Down ⟨800, 500, (30 : ℝ), 0, TileType.Rhombs, []⟩
        = ⟨800, 500, (30 : ℝ), 0, TileType.Rhombs, []⟩
  ∧ keyPressed Key.Down ⟨800, 500, (30 : ℝ), 1, TileType.Rhombs, []⟩
      = refreshTiles ⟨800, 500, (30 : ℝ), 1 - 1, TileType.Rhombs, []⟩ :=
  ⟨(claim_C8_down_key ⟨800, 500, (30 : ℝ), 0, TileType.Rhombs, []⟩).1 rfl,
   (claim_C8_down_key ⟨800, 500, (30 : ℝ), 1, TileType.Rhombs, []⟩).2 (by decide)⟩

/-- Claim C9: regeneration is deterministic as a function of the inputs it
reads (canvas size, baseLength, depth, tileType) - in particular the
previous tile list does not influence the result. -/
theorem claim_C9_deterministic :
    ∀ d1 d2 : ModelData,
      d1.width = d2.width → d1.height = d2.height →
      d1.baseLength = d2.baseLength → d1.depth = d2.depth →
      d1.tileType = d2.tileType →
      (refreshTiles d1).tiles = (refreshTiles d2).tiles := by
  intro d1 d2 hw hh hb hd ht
  cases d1
  cases d2
  simp_all [refreshTiles]

/-- Claim C9 witness: two concrete states agreeing on everything except the
previous tile list regenerate to the same tiles. -/
theorem claim_C9_deterministic_witness :
    (refreshTiles ⟨800, 500, (30 : ℝ), 1, TileType.Rhombs, []⟩).tiles
      = (refreshTiles ⟨800, 500, (30 : ℝ), 1, TileType.Rhombs,
          [HalfTile.Kite (0, 0) (0, 0) (0, 0)]⟩).tiles :=
  claim_C9_deterministic _ _ rfl rfl rfl rfl rfl

/-- Claim C10: deflation children stay in their parent's family, and every
tile of a regenerated generation belongs to the family selected by the
tileType. -/
theorem claim_C10_family_invariant :
    (∀ t : HalfTile,
      (deflate t).all (fun c => decide (family c = family t)) = true)
  ∧ (∀ data : ModelData,
      ((refreshTiles data).tiles).all
        (fun t => decide (family t = data.tileType)) = true) := by
  constructor
  · intro t
    rw [List.all_eq_true]
    intro c hc
    simp [family_mem_deflate hc]
  · intro data
    rw [List.all_eq_true]
    intro t ht
    have htiles : (refreshTiles data).tiles
        = deflateTiles^[data.depth.toNat]
            (initialTilesFor data.tileType (Int.fdiv data.width 2)
              (Int.fdiv data.height 2) (data.baseLength / PHI ^ data.depth)) := rfl
    rw [htiles] at ht
    have hfam := family_iterate data.tileType data.depth.toNat _
      (family_initialTilesFor data.tileType (Int.fdiv data.width 2)
        (Int.fdiv data.height 2) (data.baseLength / PHI ^ data.depth)) t ht
    simp [hfam]

/-- sin (pi / 5) is positive. -/
lemma sin_pi_div_five_pos : 0 < Real.sin (Real.pi / 5) :=
  Real.sin_pos_of_pos_of_lt_pi (by positivity) (by linarith [Real.pi_pos])

/-- cos (pi / 5) is positive. -/
lemma cos_pi_div_five_pos : 0 < Real.cos (Real.pi / 5) :=
  Real.cos_pos_of_mem_Ioo
    ⟨by linarith [Real.pi_pos], by linarith [Real.pi_pos]⟩

/-- sin (2 pi / 5) is positive. -/
lemma sin_two_pi_div_five_pos : 0 < Real.sin (2 * Real.pi / 5) :=
  Real.sin_pos_of_pos_of_lt_pi (by positivity) (by linarith [Real.pi_pos])

/-- Claim C3 counterexample: at center (0, 0) and edge length 1 the
Kite/Dart seed is not the tile the claim describes (apex the top-middle
point horizontally offset by length times sin (pi / 5), vertex1 the
bottom-left corner, and triangle height length times cos (pi / 5)): the
code puts the apex at the bottom-left corner and uses height
length times sin (pi / 5). -/
theorem claim_C3_kitedart_seed_cex :
    KiteDart.initialTiles 0 0 1
      ≠ [HalfTile.Kite
          ((0 : ℝ) - 1 / 2 + 1 * Real.sin (Real.pi / 5),
           (0 : ℝ) - 1 * Real.cos (Real.pi / 5) / 2)
          ((0 : ℝ) - 1 / 2, (0 : ℝ) + 1 * Real.cos (Real.pi / 5) / 2)
          ((0 : ℝ) + 1 / 2, (0 : ℝ) + 1 * Real.cos (Real.pi / 5) / 2)] := by
  intro h
  simp only [KiteDart.initialTiles, List.cons.injEq, and_true,
    HalfTile.Kite.injEq, Prod.mk.injEq] at h
  obtain ⟨⟨hx, hy⟩, _⟩ := h
  norm_num at hy
  have hs := sin_pi_div_five_pos
  have hc := cos_pi_div_five_pos
  linarith

/-- Claim C3 amended: for every center and edge length, the Kite/Dart seed
is a single Kite whose apex is the bottom-left corner, vertex1 the
top-middle point horizontally offset from the left by
length times cos (pi / 5), vertex2 the bottom-right corner, and whose
height is length times sin (pi / 5). -/
theorem claim_C3_kitedart_seed_amended :
    ∀ (cx cy : ℤ) (length : ℝ),
      KiteDart.initialTiles cx cy length
        = [HalfTile.Kite
            (((Int.fdiv (cx * 2) 5 : ℤ) : ℝ) - length / 2,
             ((Int.fdiv (cy * 2) 5 : ℤ) : ℝ) + length * Real.sin (Real.pi / 5) / 2)
            (((Int.fdiv (cx * 2) 5 : ℤ) : ℝ) - length / 2
               + length * Real.cos (Real.pi / 5),
             ((Int.fdiv (cy * 2) 5 : ℤ) : ℝ) - length * Real.sin (Real.pi / 5) / 2)
            (((Int.fdiv (cx * 2) 5 : ℤ) : ℝ) + length / 2,
             ((Int.fdiv (cy * 2) 5 : ℤ) : ℝ) + length * Real.sin (Real.pi / 5) / 2)] :=
  fun _ _ _ => rfl

/-- Evaluation of the regeneration scenario of claim C4. -/
lemma refreshTiles_dataC4 :
    (refreshTiles dataC4).tiles
      = [HalfTile.Acute
          ((160 : ℝ) - 30 * Real.sin (2 * Real.pi / 5) / 2, 250)
          ((160 : ℝ) + 30 * Real.sin (2 * Real.pi / 5) / 2, 250 - 30 * PHI / 2)
          ((160 : ℝ) + 30 * Real.sin (2 * Real.pi / 5) / 2, 250 + 30 * PHI / 2)] := by
  have h1 : Int.fdiv (800 : ℤ) 2 = 400 := by decide
  have h2 : Int.fdiv (500 : ℤ) 2 = 250 := by decide
  have h3 : Int.fdiv ((400 : ℤ) * 2) 5 = 160 := by decide
  simp [refreshTiles, dataC4, initialTilesFor, Rhomb.initialTiles,
    h1, h2, h3]

/-- Claim C4 counterexample: the depth-0 rhomb scenario does not produce
the tile the claim describes (apex at (160, 250) and vertex x-coordinate
160 + 30 times sin (2 pi / 5)): the actual apex x is
160 - 15 times sin (2 pi / 5). -/
theorem claim_C4_rhomb_scenario_cex :
    (refreshTiles dataC4).tiles
      ≠ [HalfTile.Acute ((160 : ℝ), 250)
          ((160 : ℝ) + 30 * Real.sin (2 * Real.pi / 5), 250 - 30 * PHI / 2)
          ((160 : ℝ) + 30 * Real.sin (2 * Real.pi / 5), 250 + 30 * PHI / 2)] := by
  rw [refreshTiles_dataC4]
  intro h
  have h1 := congrArg List.head? h
  simp only [List.head?_cons, Option.some.injEq] at h1
  have h2 := congrArg (fun t => (apexOf t).1) h1
  simp only [apexOf] at h2
  have hs := sin_two_pi_div_five_pos
  linarith

/-- Claim C4 amended: the scenario produces exactly one Acute half-tile
with apex (160 - 15 sin (2 pi / 5), 250) and vertices at
x = 160 + 15 sin (2 pi / 5), y = 250 -+ 15 PHI. -/
theorem claim_C4_rhomb_scenario_amended :
    (refreshTiles dataC4).tiles
      = [HalfTile.Acute
          ((160 : ℝ) - 30 * Real.sin (2 * Real.pi / 5) / 2, 250)
          ((160 : ℝ) + 30 * Real.sin (2 * Real.pi / 5) / 2, 250 - 30 * PHI / 2)
          ((160 : ℝ) + 30 * Real.sin (2 * Real.pi / 5) / 2, 250 + 30 * PHI / 2)] :=
  refreshTiles_dataC4

/-- Claim C5 counterexample: starting from the rhomb seed, the depth-2
generation has 5 tiles, not 3. -/
theorem claim_C5_rhomb_counts_cex :
    (refreshTiles ⟨800, 500, (30 : ℝ), 2, TileType.Rhombs, []⟩).tiles.length ≠ 3 := by
  have h : (refreshTiles ⟨800, 500, (30 : ℝ), 2,
      TileType.Rhombs, []⟩).tiles.length = 5 := rfl
  omega

/-- Claim C5 amended: from a single Acute seed, depth 0 has 1 Acute,
depth 1 has 1 Obtuse then 1 Acute, and depth 2 has 5 tiles. -/
theorem claim_C5_rhomb_counts_amended :
    ∀ apex vertex1 vertex2 : Point,
      ([HalfTile.Acute apex vertex1 vertex2].map variantOf = [Variant.Acute])
    ∧ ((deflateTiles [HalfTile.Acute apex vertex1 vertex2]).map variantOf
        = [Variant.Obtuse, Variant.Acute])
    ∧ (deflateTiles (deflateTiles [HalfTile.Acute apex vertex1 vertex2])).length = 5 :=
  fun _ _ _ => ⟨rfl, rfl, rfl⟩

end Penrose
